import Mathlib

/-!
Shallow embedding of the print-cost estimation server (`main.py`):
page rasterization, saturation-based color classification, tier pricing,
pricing-config fetching with fallback, and per-file result aggregation.

External collaborators (OpenCV color conversion, PyMuPDF rendering,
LibreOffice conversion, the HTTP pricing source) are modelled by their
observable outcomes: a fetch outcome, a decode outcome, a conversion
outcome, and rendered pixel buffers.
-/

/-- A price table, as the `prices` dict of `fetch_pricing_config`:
integer unit prices for the three tiers. -/
structure PriceTable where
  bnw : ℤ
  color : ℤ
  full_color : ℤ
deriving Repr, DecidableEq

/-- The hardcoded default prices initialised at the top of
`fetch_pricing_config` (bnw=500, color=1000, full_color=1500). -/
def defaultPrices : PriceTable := ⟨500, 1000, 1500⟩

/-- Observable shape of a parsed JSON body of the pricing endpoint:
`success` is the truthiness of `data.get('success')`, `pricesPresent` is
`'data' in data and 'prices' in data['data']`, and `bnw`/`color` are the
integer values found under `data['data']['prices']`, when present. -/
structure Body where
  success : Bool
  pricesPresent : Bool
  bnw : Option ℤ
  color : Option ℤ
deriving Repr, DecidableEq

/-- Outcome of `requests.get(PRICING_API_URL, timeout=5)` followed by
`response.json()`: either some exception was raised (timeout, unreachable
host, malformed JSON), or a response with a status code and parsed body
arrived. -/
inductive FetchOutcome where
  | exn : FetchOutcome
  | resp (status : ℕ) (body : Body) : FetchOutcome
deriving Repr, DecidableEq

/-- Embedding of `fetch_pricing_config` (main.py lines 45-69): start from
the defaults; on a 200 response whose body has a truthy `success` and a
`data.prices` object, override `bnw` and `color` by the keys present
(`api_prices.get('bnw', prices["bnw"])`); any exception falls back to the
defaults; `full_color` is never assigned after initialisation. -/
def fetch_pricing_config (o : FetchOutcome) : PriceTable :=
  let prices : PriceTable := ⟨500, 1000, 1500⟩
  match o with
  | .exn => prices
  | .resp status body =>
    if status = 200 then
      if body.success && body.pricesPresent then
        { bnw := body.bnw.getD prices.bnw
          color := body.color.getD prices.color
          full_color := prices.full_color }
      else prices
    else prices

/-- A fetch outcome that takes none of the override paths of
`fetch_pricing_config`: an exception, a non-200 status, a falsy success
flag, or a missing `data.prices`. -/
def fetchFailed : FetchOutcome → Bool
  | .exn => true
  | .resp status body => status ≠ 200 || !(body.success && body.pricesPresent)

/-- Embedding of `calculate_price_for_percentage` (main.py lines 71-77).
Percentages are exact rationals; the tier is the string the source
returns. -/
def calculate_price_for_percentage (percentage : ℚ) (price_config : PriceTable) :
    String × ℤ :=
  if percentage ≤ 0 then ("black_and_white", price_config.bnw)
  else if percentage ≤ 50 then ("color", price_config.color)
  else ("full_color", price_config.full_color)

/-- Saturation Threshold: 0-255. Pixels with saturation < 20 are considered
gray/black/white (main.py line 32). -/
def SATURATION_THRESHOLD : ℕ := 20

/-- Saturation component (0-255 scale) of one 8-bit BGR pixel, as OpenCV's
BGR→HSV conversion computes it: `V = max(B,G,R)`, and
`S = round(255 * (V - min(B,G,R)) / V)` for `V ≠ 0`, else 0. The triple is
ordered (blue, green, red). -/
def saturation (p : ℕ × ℕ × ℕ) : ℕ :=
  let v := max p.1 (max p.2.1 p.2.2)
  let vmin := min p.1 (min p.2.1 p.2.2)
  if v = 0 then 0 else (510 * (v - vmin) + v) / (2 * v)

/-- Round a rational to the nearest integer, ties to even, as Python's
builtin `round` does on exact values. -/
def roundHalfEven (q : ℚ) : ℤ :=
  let f := ⌊q⌋
  if q - f < 1/2 then f
  else if 1/2 < q - f then f + 1
  else if 2 ∣ f then f else f + 1

/-- Python's `round(q, 2)`: round to two decimal places. -/
def round2 (q : ℚ) : ℚ := (roundHalfEven (q * 100) : ℚ) / 100

/-- A pixel buffer as handed to `analyze_image_array`: either a proper
3-channel BGR raster of height `h` and width `w` (pixels as (b,g,r)
triples), or a buffer OpenCV's `cvtColor` rejects (corrupt data or an
unexpected channel count `c`). -/
inductive Buf where
  | bgr (h w : ℕ) (px : ℕ → ℕ → ℕ × ℕ × ℕ) : Buf
  | bad (h w c : ℕ) : Buf

/-- Height of a buffer (`img_array.shape[0]`). -/
def Buf.height : Buf → ℕ
  | .bgr h _ _ => h
  | .bad h _ _ => h

/-- Width of a buffer (`img_array.shape[1]`). -/
def Buf.width : Buf → ℕ
  | .bgr _ w _ => w
  | .bad _ w _ => w

/-- Channel count of a buffer. -/
def Buf.channels : Buf → ℕ
  | .bgr _ _ _ => 3
  | .bad _ _ c => c

/-- Pixel lookup on a buffer: only proper BGR buffers expose pixels. -/
def Buf.pxAt : Buf → ℕ → ℕ → Option (ℕ × ℕ × ℕ)
  | .bgr _ _ px, i, j => some (px i j)
  | .bad _ _ _, _, _ => none

/-- Model of `cv2.cvtColor(img_array, cv2.COLOR_BGR2HSV)` restricted to the
saturation plane `hsv_img[:, :, 1]`: defined on 3-channel BGR buffers and
raising (`none`) on anything else. -/
def cvtColor_BGR2HSV_sat : Buf → Option (ℕ × ℕ × (ℕ → ℕ → ℕ))
  | .bgr h w px => some (h, w, fun i j => saturation (px i j))
  | .bad _ _ _ => none

/-- Count of pixels whose saturation strictly exceeds the threshold, as
`np.count_nonzero(saturation_channel > SATURATION_THRESHOLD)`. -/
def coloredCount (h w : ℕ) (sat : ℕ → ℕ → ℕ) : ℕ :=
  ((Finset.range h ×ˢ Finset.range w).filter
    (fun p => SATURATION_THRESHOLD < sat p.1 p.2)).card

/-- Embedding of `analyze_image_array` (main.py lines 79-102): convert BGR
to HSV, count pixels with saturation above the threshold, return
`(colored / total) * 100` rounded to two decimals, 0.0 on a zero-area
image, and 0.0 when anything inside raises (the `except` clause). -/
def analyze_image_array (img_array : Buf) : ℚ :=
  match cvtColor_BGR2HSV_sat img_array with
  | none => 0
  | some (h, w, sat) =>
    let colored_pixels := coloredCount h w sat
    let total_pixels := h * w
    if total_pixels = 0 then 0
    else round2 ((colored_pixels : ℚ) / (total_pixels : ℚ) * 100)

/-- A pixmap as produced by `page.get_pixmap(matrix=fitz.Matrix(1.5, 1.5))`:
either a 1-channel grayscale raster (`pix.n < 3` in the source) or a
3-channel raster in the decoder's RGB channel order (pixels as (r,g,b)
triples). -/
inductive Pixmap where
  | gray (h w : ℕ) (px : ℕ → ℕ → ℕ) : Pixmap
  | rgb (h w : ℕ) (px : ℕ → ℕ → ℕ × ℕ × ℕ) : Pixmap

/-- `pix.n`: the channel count of a pixmap. -/
def Pixmap.n : Pixmap → ℕ
  | .gray _ _ _ => 1
  | .rgb _ _ _ => 3

/-- Model of `cv2.cvtColor(img_array, cv2.COLOR_GRAY2BGR)`: replicate the
gray value into all three channels. -/
def cvtColor_GRAY2BGR (h w : ℕ) (px : ℕ → ℕ → ℕ) : Buf :=
  .bgr h w (fun i j => (px i j, px i j, px i j))

/-- Model of `cv2.cvtColor(img_array, cv2.COLOR_RGB2BGR)`: reverse the
channel order of each pixel, so an (r,g,b) sample becomes a (b,g,r)
pixel. -/
def cvtColor_RGB2BGR (h w : ℕ) (px : ℕ → ℕ → ℕ × ℕ × ℕ) : Buf :=
  .bgr h w (fun i j => ((px i j).2.2, (px i j).2.1, (px i j).1))

/-- Channel normalization applied to every rendered page in
`process_file_logic` (main.py lines 219-224): `pix.n < 3` buffers go
through GRAY2BGR, the rest through RGB2BGR. -/
def normalizePixmap : Pixmap → Buf
  | .gray h w px => cvtColor_GRAY2BGR h w px
  | .rgb h w px => cvtColor_RGB2BGR h w px

/-- Allowed document extensions (main.py line 26). -/
def ALLOWED_EXTENSIONS_DOC : List String := ["pdf", "docx", "doc"]

/-- Allowed image extensions (main.py line 27). -/
def ALLOWED_EXTENSIONS_IMG : List String := ["jpg", "jpeg", "png"]

/-- Lower-cased extension after the last dot, as
`filename.rsplit('.', 1)[1].lower()`. Callers reach this only for
filenames containing a dot (guarded by `allowed_file`); on a dotless name
this returns the whole name. -/
def fileExt (filename : String) : String :=
  String.mk (((filename.toList.reverse.takeWhile (fun c => c ≠ '.')).reverse).map
    Char.toLower)

/-- Embedding of `allowed_file` (main.py lines 34-37). -/
def allowed_file (filename : String) : Bool :=
  filename.toList.contains '.' &&
    (ALLOWED_EXTENSIONS_DOC.contains (fileExt filename) ||
      ALLOWED_EXTENSIONS_IMG.contains (fileExt filename))

/-- Embedding of `get_file_type` (main.py lines 39-43). -/
def get_file_type (filename : String) : String :=
  if ALLOWED_EXTENSIONS_IMG.contains (fileExt filename) then "image" else "document"

/-- One entry of a document's `colors` list. -/
structure PageClassification where
  page : ℕ
  color : String
  price : ℤ
  price_bnw : ℤ
  percentage : ℚ
deriving Repr, DecidableEq

/-- The `result_entry` dict built by `process_file_logic`. -/
structure DocumentResult where
  filename : String
  type : String
  total_pages : ℕ
  total_price : ℤ
  total_price_bnw : ℤ
  colors : List PageClassification
deriving Repr, DecidableEq

/-- Observable outcomes of the external collaborators for one file:
`convOk` is whether `convert_doc_to_pdf` succeeds (LibreOffice found, zero
exit, output PDF present); `image` is the `cv2.imread` result (`none` for
an unreadable image); `pdf` is `none` when `fitz.open` raises on an
unreadable document, and otherwise the opened document's pages in order,
each page being the outcome of loading and rendering it
(`page.get_pixmap`): a pixmap, or `none` when that call raises (e.g. an
encrypted or damaged page). `doc.page_count` is the length of that
list. -/
structure FileEnv where
  convOk : Bool
  image : Option Buf
  pdf : Option (List (Option Pixmap))

/-- The per-page loop of the PDF branch of `process_file_logic` (main.py
lines 214-238), numbering pages from `page_num`. The first component is
`some (total_doc_price, total_doc_price_bnw)` when every page renders and
the loop runs to completion, and `none` when a page raises, aborting the
loop (the local accumulators are then discarded, since lines 240-241 never
run). The second component is the `colors` entries appended to
`result_entry` before the loop ended, which persist either way because
`result_entry["colors"].append` mutates in place. -/
def processPagesExc (price_config : PriceTable) (page_num : ℕ) :
    List (Option Pixmap) → Option (ℤ × ℤ) × List PageClassification
  | [] => (some (0, 0), [])
  | none :: _ => (none, [])
  | some pix :: rest =>
    let img_array := normalizePixmap pix
    let percentage := analyze_image_array img_array
    let cp := calculate_price_for_percentage percentage price_config
    let acc := processPagesExc price_config (page_num + 1) rest
    (acc.1.map (fun t => (cp.2 + t.1, price_config.bnw + t.2)),
      ⟨page_num, cp.1, cp.2, price_config.bnw, percentage⟩ :: acc.2)

/-- Embedding of `process_file_logic` (main.py lines 157-254). The
initialised `result_entry` is returned unchanged when conversion of a
doc/docx fails (explicit early return), when `cv2.imread` yields nothing
(the raised `ValueError` is caught by the outer handler), or when
`fitz.open` raises (caught by the outer handler). In the PDF branch
`total_pages` is assigned from `doc.page_count` (line 209) before the
render loop, so when a page later fails to render the caught exception
leaves `total_pages` set and the totals at 0, with `colors` holding the
entries appended before the failure. -/
def process_file_logic (filename : String) (env : FileEnv)
    (price_config : PriceTable) : DocumentResult :=
  let file_type := get_file_type filename
  let ext := fileExt filename
  let result_entry : DocumentResult := ⟨filename, file_type, 0, 0, 0, []⟩
  if (ext = "doc" ∨ ext = "docx") ∧ env.convOk = false then result_entry
  else if file_type = "image" then
    match env.image with
    | none => result_entry
    | some img =>
      let percentage := analyze_image_array img
      let cp := calculate_price_for_percentage percentage price_config
      { result_entry with
          total_pages := 1
          total_price := cp.2
          total_price_bnw := price_config.bnw
          colors := [⟨1, cp.1, cp.2, price_config.bnw, percentage⟩] }
  else
    match env.pdf with
    | none => result_entry
    | some doc =>
      let acc := processPagesExc price_config 1 doc
      match acc.1 with
      | some t =>
        { result_entry with
            total_pages := doc.length
            total_price := t.1
            total_price_bnw := t.2
            colors := acc.2 }
      | none =>
        { result_entry with
            total_pages := doc.length
            colors := acc.2 }

/-- The situations in which `process_file_logic` fails before any page is
produced: conversion failure for doc/docx, an unreadable image, or a
document `fitz.open` cannot open. -/
def processingFailed (filename : String) (env : FileEnv) : Bool :=
  if (fileExt filename = "doc" ∨ fileExt filename = "docx") ∧ env.convOk = false then
    true
  else if get_file_type filename = "image" then env.image.isNone
  else env.pdf.isNone

/-- The degraded `result_entry` returned for a file that could not be
processed. -/
def degradedResult (filename : String) : DocumentResult :=
  ⟨filename, get_file_type filename, 0, 0, 0, []⟩

/-- The situation in which the per-page render loop of the PDF branch is
aborted by an exception after `fitz.open` succeeded and
`result_entry["total_pages"]` was already assigned: some page of the
opened document fails to load or render. -/
def pdfAborted (filename : String) (env : FileEnv) : Bool :=
  if (fileExt filename = "doc" ∨ fileExt filename = "docx") ∧ env.convOk = false then
    false
  else if get_file_type filename = "image" then false
  else
    match env.pdf with
    | none => false
    | some doc => doc.any Option.isNone

/-- A file whose processing runs to completion with no exception on any
path: conversion succeeded where needed, the image decoded, or the
document opened and every page rendered. -/
def fileFullyProcessed (filename : String) (env : FileEnv) : Bool :=
  if (fileExt filename = "doc" ∨ fileExt filename = "docx") ∧ env.convOk = false then
    false
  else if get_file_type filename = "image" then env.image.isSome
  else
    match env.pdf with
    | none => false
    | some doc => doc.all Option.isSome

/-- A concrete run on a one-page PDF whose only page fails to render after
a successful open: `doc.page_count` is 1 but no page is produced. -/
def abortedSample : DocumentResult :=
  process_file_logic ("x.pdf") ⟨true, none, some [none]⟩ defaultPrices

/-- The batch loop of the `/detect` route (main.py lines 265-291): fetch
the price table once, then process every allowed file independently. -/
def detect_colors (files : List (String × FileEnv)) (o : FetchOutcome) :
    List DocumentResult :=
  let current_prices := fetch_pricing_config o
  (files.filter (fun f => allowed_file f.1)).map
    (fun f => process_file_logic f.1 f.2 current_prices)

/-- C1: the tier/price resolver is a pure total function with exactly three
buckets: `p ≤ 0` gives black_and_white at the bnw price, `0 < p ≤ 50` gives
color at the color price, `p > 50` gives full_color at the full_color price;
in particular it maps 0 to black_and_white, 50 to color, 50.01 and 100 to
full_color. -/
theorem tier_resolver_three_buckets (p : ℚ) (t : PriceTable) :
    (p ≤ 0 → calculate_price_for_percentage p t = ("black_and_white", t.bnw)) ∧
    (0 < p → p ≤ 50 → calculate_price_for_percentage p t = ("color", t.color)) ∧
    (50 < p → calculate_price_for_percentage p t = ("full_color", t.full_color)) ∧
    (calculate_price_for_percentage 0 t).1 = "black_and_white" ∧
    (calculate_price_for_percentage 50 t).1 = "color" ∧
    (calculate_price_for_percentage (5001/100) t).1 = "full_color" ∧
    (calculate_price_for_percentage 100 t).1 = "full_color" := by
  refine ⟨?_, ?_, ?_, ?_, ?_, ?_, ?_⟩
  · intro h; simp only [calculate_price_for_percentage, if_pos h]
  · intro h0 h50
    simp only [calculate_price_for_percentage, if_neg (not_le.mpr h0), if_pos h50]
  · intro h50
    simp only [calculate_price_for_percentage, if_neg (not_le.mpr (by linarith : (0:ℚ) < p)),
      if_neg (not_le.mpr h50)]
  · simp [calculate_price_for_percentage]
  · norm_num [calculate_price_for_percentage]
  · norm_num [calculate_price_for_percentage]
  · norm_num [calculate_price_for_percentage]

/-- Witness for `tier_resolver_three_buckets`: at percentage 0 with the
default table, the resolver yields the black-and-white tier at price 500. -/
theorem tier_resolver_three_buckets_witness :
    calculate_price_for_percentage 0 defaultPrices = ("black_and_white", 500) :=
  (tier_resolver_three_buckets 0 defaultPrices).1 (le_refl 0)

/-- C4: every failing fetch outcome (exception, non-200 status, falsy
success flag, or missing `data.prices`) resolves to exactly the default
table {bnw 500, color 1000, full_color 1500}; as a total Lean function the
provider never raises to its caller. -/
theorem pricing_fallback_on_failure (o : FetchOutcome) (h : fetchFailed o = true) :
    fetch_pricing_config o = defaultPrices := by
  cases o with
  | exn => rfl
  | resp status body =>
    simp only [fetchFailed, Bool.or_eq_true, Bool.not_eq_eq_eq_not, Bool.not_true,
      decide_eq_true_eq, ne_eq, Bool.and_eq_false_iff] at h
    simp only [fetch_pricing_config, defaultPrices]
    rcases h with h | h
    · rw [if_neg h]
    · rcases Nat.decEq status 200 with hs | hs
      · rw [if_neg hs]
      · rw [if_pos hs, if_neg]
        simp only [Bool.and_eq_true, not_and]
        intro h1 h2
        rcases h with h | h
        · rw [h1] at h; exact absurd h (by simp)
        · rw [h2] at h; exact absurd h (by simp)

/-- Witness for `pricing_fallback_on_failure`: the exception outcome
resolves to the default table. -/
theorem pricing_fallback_on_failure_witness :
    fetchFailed FetchOutcome.exn = true ∧
      fetch_pricing_config FetchOutcome.exn = defaultPrices :=
  ⟨rfl, pricing_fallback_on_failure FetchOutcome.exn rfl⟩

/-- C7: no fetch outcome whatsoever changes the `full_color` entry: it is
always the fixed policy value 1500. -/
theorem full_color_never_overridden (o : FetchOutcome) :
    (fetch_pricing_config o).full_color = 1500 := by
  cases o with
  | exn => rfl
  | resp status body =>
    simp only [fetch_pricing_config]
    split
    · split <;> rfl
    · rfl

/-- C10: on a 200 response with truthy success and a `data.prices` object,
the override is per key: a present `bnw`/`color` value replaces the
default, an absent key keeps its default, and a partial payload is not
treated as malformed. -/
theorem pricing_override_per_key (body : Body)
    (hs : body.success = true) (hp : body.pricesPresent = true) :
    fetch_pricing_config (.resp 200 body) =
      ⟨body.bnw.getD 500, body.color.getD 1000, 1500⟩ ∧
    (body.bnw = none → (fetch_pricing_config (.resp 200 body)).bnw = 500) ∧
    (∀ v : ℤ, body.bnw = some v → (fetch_pricing_config (.resp 200 body)).bnw = v) ∧
    (body.color = none → (fetch_pricing_config (.resp 200 body)).color = 1000) ∧
    (∀ v : ℤ, body.color = some v → (fetch_pricing_config (.resp 200 body)).color = v) := by
  have hmain : fetch_pricing_config (.resp 200 body) =
      ⟨body.bnw.getD 500, body.color.getD 1000, 1500⟩ := by
    simp [fetch_pricing_config, hs, hp]
  refine ⟨hmain, ?_, ?_, ?_, ?_⟩
  · intro h; rw [hmain]; simp [h]
  · intro v h; rw [hmain]; simp [h]
  · intro h; rw [hmain]; simp [h]
  · intro v h; rw [hmain]; simp [h]

/-- Witness for `pricing_override_per_key`: a payload carrying only
`bnw = 700` overrides bnw, keeps the default color 1000, and keeps
full_color 1500. -/
theorem pricing_override_per_key_witness :
    fetch_pricing_config (.resp 200 ⟨true, true, some 700, none⟩) =
      ⟨700, 1000, 1500⟩ :=
  (pricing_override_per_key ⟨true, true, some 700, none⟩ rfl rfl).1

/-- Lower bound of banker's rounding: never below the floor. -/
theorem roundHalfEven_ge_floor (q : ℚ) : ⌊q⌋ ≤ roundHalfEven q := by
  simp only [roundHalfEven]
  repeat' split
  all_goals omega

/-- Upper bound of banker's rounding: never above the ceiling. -/
theorem roundHalfEven_le_ceil (q : ℚ) : roundHalfEven q ≤ ⌈q⌉ := by
  have hfc := Int.floor_le_ceil q
  have key : (⌊q⌋ : ℚ) < q → ⌊q⌋ + 1 ≤ ⌈q⌉ := fun hh =>
    Int.add_one_le_iff.mpr (Int.lt_ceil.mpr hh)
  simp only [roundHalfEven]
  split_ifs with h1 h2 h3
  · exact hfc
  · exact key (by linarith)
  · exact hfc
  · exact key (by push_neg at h1; linarith)

/-- Rounding to two decimals preserves nonnegativity. -/
theorem round2_nonneg (q : ℚ) (h : 0 ≤ q) : 0 ≤ round2 q := by
  have h1 : (0 : ℤ) ≤ ⌊q * 100⌋ := Int.floor_nonneg.mpr (by positivity)
  have h2 : (0 : ℤ) ≤ roundHalfEven (q * 100) :=
    le_trans h1 (roundHalfEven_ge_floor (q * 100))
  have h3 : (0 : ℚ) ≤ (roundHalfEven (q * 100) : ℚ) := by exact_mod_cast h2
  unfold round2
  exact div_nonneg h3 (by norm_num)

/-- Rounding to two decimals preserves the upper bound 100. -/
theorem round2_le_hundred (q : ℚ) (h : q ≤ 100) : round2 q ≤ 100 := by
  have h1 : roundHalfEven (q * 100) ≤ ⌈q * 100⌉ := roundHalfEven_le_ceil _
  have h2 : ⌈q * 100⌉ ≤ ⌈(10000 : ℚ)⌉ := Int.ceil_mono (by linarith)
  have h3 : ⌈(10000 : ℚ)⌉ = 10000 := by
    have := Int.ceil_intCast (α := ℚ) (10000 : ℤ)
    exact_mod_cast this
  have h4 : roundHalfEven (q * 100) ≤ 10000 := by omega
  have h5 : (roundHalfEven (q * 100) : ℚ) ≤ 10000 := by exact_mod_cast h4
  unfold round2
  linarith

/-- Colored pixels are a subset of all pixels. -/
theorem coloredCount_le (h w : ℕ) (sat : ℕ → ℕ → ℕ) : coloredCount h w sat ≤ h * w := by
  unfold coloredCount
  calc ((Finset.range h ×ˢ Finset.range w).filter
        (fun p => SATURATION_THRESHOLD < sat p.1 p.2)).card
      ≤ (Finset.range h ×ˢ Finset.range w).card := Finset.card_filter_le _ _
    _ = h * w := by rw [Finset.card_product, Finset.card_range, Finset.card_range]

/-- C2: on a 3-channel page the classifier returns the fraction of pixels
whose saturation strictly exceeds 20, times 100, rounded to two decimals;
a zero-area page yields 0.0 instead of dividing by zero; the result always
lies in [0,100]. -/
theorem classifier_saturation_percentage (h w : ℕ) (px : ℕ → ℕ → ℕ × ℕ × ℕ) :
    (h * w = 0 → analyze_image_array (Buf.bgr h w px) = 0) ∧
    (h * w ≠ 0 → analyze_image_array (Buf.bgr h w px) =
      round2 ((coloredCount h w (fun i j => saturation (px i j)) : ℚ) /
        ((h * w : ℕ) : ℚ) * 100)) ∧
    0 ≤ analyze_image_array (Buf.bgr h w px) ∧
    analyze_image_array (Buf.bgr h w px) ≤ 100 := by
  have hca := coloredCount_le h w (fun i j => saturation (px i j))
  simp only [analyze_image_array, cvtColor_BGR2HSV_sat]
  have hbound : h * w ≠ 0 →
      0 ≤ (coloredCount h w (fun i j => saturation (px i j)) : ℚ) /
          ((h * w : ℕ) : ℚ) * 100 ∧
      (coloredCount h w (fun i j => saturation (px i j)) : ℚ) /
          ((h * w : ℕ) : ℚ) * 100 ≤ 100 := by
    intro h0
    have ht : (0 : ℚ) < ((h * w : ℕ) : ℚ) := by
      exact_mod_cast Nat.pos_of_ne_zero h0
    have hc : (coloredCount h w (fun i j => saturation (px i j)) : ℚ) ≤
        ((h * w : ℕ) : ℚ) := by exact_mod_cast hca
    have hdiv : (coloredCount h w (fun i j => saturation (px i j)) : ℚ) /
        ((h * w : ℕ) : ℚ) ≤ 1 := (div_le_one ht).mpr hc
    constructor
    · positivity
    · linarith
  refine ⟨fun h0 => by rw [if_pos h0], fun h0 => by rw [if_neg h0], ?_, ?_⟩
  · by_cases h0 : h * w = 0
    · rw [if_pos h0]
    · rw [if_neg h0]
      exact round2_nonneg _ (hbound h0).1
  · by_cases h0 : h * w = 0
    · rw [if_pos h0]; norm_num
    · rw [if_neg h0]
      exact round2_le_hundred _ (hbound h0).2

/-- Witness for `classifier_saturation_percentage`: a 1×1 pure-red page
(BGR (0,0,255)) takes the non-zero-area branch, and a 0×5 page yields 0. -/
theorem classifier_saturation_percentage_witness :
    analyze_image_array (Buf.bgr 0 5 (fun _ _ => (0, 0, 0))) = 0 ∧
    analyze_image_array (Buf.bgr 1 1 (fun _ _ => (0, 0, 255))) =
      round2 ((coloredCount 1 1 (fun _ _ => saturation (0, 0, 255)) : ℚ) /
        ((1 * 1 : ℕ) : ℚ) * 100) :=
  ⟨(classifier_saturation_percentage 0 5 (fun _ _ => (0, 0, 0))).1 rfl,
   (classifier_saturation_percentage 1 1 (fun _ _ => (0, 0, 255))).2.1 (by decide)⟩

/-- C6: whenever the internal color conversion fails (corrupt buffer or
unexpected channel count), the classifier catches the failure and returns
0.0; as a total Lean function it never raises. -/
theorem classifier_absorbs_internal_failures (img : Buf)
    (h : cvtColor_BGR2HSV_sat img = none) : analyze_image_array img = 0 := by
  unfold analyze_image_array
  rw [h]

/-- Witness for `classifier_absorbs_internal_failures`: a 4-channel buffer
is rejected by the conversion and classified as 0. -/
theorem classifier_absorbs_internal_failures_witness :
    analyze_image_array (Buf.bad 4 4 4) = 0 :=
  classifier_absorbs_internal_failures (Buf.bad 4 4 4) rfl

/-- C8: every rendered pixmap is normalized to a 3-channel buffer before
classification: a sub-3-channel (grayscale) pixmap is expanded by
replicating its gray value, and a 3-channel RGB pixmap has its channel
order reversed, so the classifier always receives BGR data. -/
theorem channel_normalization_to_bgr :
    (∀ p : Pixmap, (normalizePixmap p).channels = 3) ∧
    (∀ (h w : ℕ) (px : ℕ → ℕ → ℕ) (i j : ℕ),
      (Pixmap.gray h w px).n < 3 ∧
      (normalizePixmap (Pixmap.gray h w px)).pxAt i j =
        some (px i j, px i j, px i j)) ∧
    (∀ (h w : ℕ) (px : ℕ → ℕ → ℕ × ℕ × ℕ) (i j : ℕ),
      (normalizePixmap (Pixmap.rgb h w px)).pxAt i j =
        some ((px i j).2.2, (px i j).2.1, (px i j).1)) := by
  refine ⟨fun p => ?_, fun h w px i j => ⟨by norm_num [Pixmap.n], rfl⟩,
    fun h w px i j => rfl⟩
  cases p <;> rfl

/-- Per-page loop invariant: every produced entry carries the table's bnw
price, the entries are exactly the longest renderable prefix of the pages,
the loop completes iff no page fails, and on completion the accumulated
totals are the sums over the entries with one entry per page. -/
theorem processPagesExc_spec (cfg : PriceTable) (doc : List (Option Pixmap)) :
    ∀ n : ℕ,
    ((processPagesExc cfg n doc).2.map PageClassification.price_bnw =
      List.replicate (processPagesExc cfg n doc).2.length cfg.bnw) ∧
    ((processPagesExc cfg n doc).2.length =
      (doc.takeWhile Option.isSome).length) ∧
    (((processPagesExc cfg n doc).1 = none) ↔ doc.any Option.isNone = true) ∧
    (∀ t : ℤ × ℤ, (processPagesExc cfg n doc).1 = some t →
      t.1 = ((processPagesExc cfg n doc).2.map PageClassification.price).sum ∧
      t.2 = ((processPagesExc cfg n doc).2.map PageClassification.price_bnw).sum ∧
      (processPagesExc cfg n doc).2.length = doc.length) := by
  induction doc with
  | nil =>
    intro n
    refine ⟨rfl, rfl, by simp [processPagesExc], fun t ht => ?_⟩
    obtain rfl : t = (0, 0) := by simpa [processPagesExc] using ht.symm
    simp [processPagesExc]
  | cons p rest ih =>
    intro n
    cases p with
    | none => simp [processPagesExc, List.takeWhile]
    | some pix =>
      obtain ⟨ih1, ih2, ih3, ih4⟩ := ih (n + 1)
      refine ⟨?_, ?_, ?_, fun t ht => ?_⟩
      · simp [processPagesExc, ih1, List.replicate_succ]
      · simp [processPagesExc, ih2, List.takeWhile]
      · simp [processPagesExc, Option.map_eq_none', ih3]
      · simp only [processPagesExc, Option.map_eq_some'] at ht
        obtain ⟨t0, h0, hft⟩ := ht
        obtain ⟨s1, s2, s3⟩ := ih4 t0 h0
        subst hft
        refine ⟨?_, ?_, ?_⟩ <;> simp [processPagesExc, s1, s2, s3]

/-- C3 (amended): the totals equal the sums over `colors` and
`total_pages` equals its length whenever no exception aborts the per-page
render loop; a failure before any page is produced by an unopened document
(conversion failure, unreadable image, failed open) yields the fully
degraded result; but when a page of a successfully opened document fails
to render, `total_pages` keeps the already-assigned page count, both
totals stay 0, and `colors` holds exactly the entries of the pages
completed before the failure. -/
theorem totals_match_page_breakdown (filename : String) (env : FileEnv)
    (cfg : PriceTable) :
    (pdfAborted filename env = false →
      (process_file_logic filename env cfg).total_price =
        ((process_file_logic filename env cfg).colors.map
          PageClassification.price).sum ∧
      (process_file_logic filename env cfg).total_price_bnw =
        ((process_file_logic filename env cfg).colors.map
          PageClassification.price_bnw).sum ∧
      (process_file_logic filename env cfg).total_pages =
        (process_file_logic filename env cfg).colors.length) ∧
    (processingFailed filename env = true →
      process_file_logic filename env cfg = degradedResult filename) ∧
    (∀ doc : List (Option Pixmap), env.pdf = some doc →
      pdfAborted filename env = true →
      (process_file_logic filename env cfg).total_pages = doc.length ∧
      (process_file_logic filename env cfg).total_price = 0 ∧
      (process_file_logic filename env cfg).total_price_bnw = 0 ∧
      (process_file_logic filename env cfg).colors =
        (processPagesExc cfg 1 doc).2 ∧
      (process_file_logic filename env cfg).colors.length =
        (doc.takeWhile Option.isSome).length) := by
  simp only [process_file_logic, processingFailed, pdfAborted, degradedResult]
  split_ifs with hconv htype
  · refine ⟨fun _ => ⟨rfl, rfl, rfl⟩, fun _ => rfl, fun doc hdoc habort => ?_⟩
    exact absurd habort (by simp)
  · cases himg : env.image with
    | none =>
      refine ⟨fun _ => ⟨rfl, rfl, rfl⟩, fun _ => rfl, fun doc hdoc habort => ?_⟩
      exact absurd habort (by simp)
    | some img =>
      refine ⟨fun _ => ⟨by simp, by simp, by simp⟩, fun hfail => ?_,
        fun doc hdoc habort => ?_⟩
      · simp [himg] at hfail
      · exact absurd habort (by simp)
  · cases hpdf : env.pdf with
    | none =>
      refine ⟨fun _ => ⟨rfl, rfl, rfl⟩, fun _ => rfl, fun doc hdoc habort => ?_⟩
      exact absurd hdoc (by simp)
    | some doc =>
      obtain ⟨h1, h2, h3, h4⟩ := processPagesExc_spec cfg doc 1
      cases hacc : (processPagesExc cfg 1 doc).1 with
      | none =>
        refine ⟨fun hnab => ?_, fun hfail => ?_, fun doc2 hdoc2 habort => ?_⟩
        · have hnab2 : doc.any Option.isNone = false := by simpa using hnab
          have hcontra := h3.mp hacc
          rw [hnab2] at hcontra
          cases hcontra
        · simp at hfail
        · injection hdoc2 with hd
          subst hd
          refine ⟨?_, ?_, ?_, ?_, ?_⟩ <;> simp [hacc, h2]
      | some t =>
        obtain ⟨s1, s2, s3⟩ := h4 t hacc
        refine ⟨fun hnab => ?_, fun hfail => ?_, fun doc2 hdoc2 habort => ?_⟩
        · refine ⟨?_, ?_, ?_⟩ <;> simp [hacc, s1, s2, s3]
        · simp at hfail
        · injection hdoc2 with hd
          subst hd
          have hnone := h3.mpr habort
          rw [hacc] at hnone
          exact absurd hnone (by simp)

/-- Witness for `totals_match_page_breakdown`: a doc file whose conversion
fails takes the fully degraded clause, and a one-page PDF whose page fails
to render after a successful open takes the aborted clause, keeping
`total_pages = 1` with empty `colors` and zero totals. -/
theorem totals_match_page_breakdown_witness :
    (process_file_logic ("a.doc") ⟨false, none, none⟩ defaultPrices =
      degradedResult ("a.doc")) ∧
    abortedSample.total_pages = 1 ∧ abortedSample.total_price = 0 ∧
    abortedSample.total_price_bnw = 0 ∧ abortedSample.colors = [] ∧
    abortedSample.colors.length = 0 := by
  have h1 := (totals_match_page_breakdown ("a.doc") ⟨false, none, none⟩
    defaultPrices).2.1 rfl
  have h2 := (totals_match_page_breakdown ("x.pdf") ⟨true, none, some [none]⟩
    defaultPrices).2.2 [none] rfl rfl
  exact ⟨h1, h2.1, h2.2.1, h2.2.2.1, h2.2.2.2.1, h2.2.2.2.2⟩

/-- Counterexample to C3 as stated: on a one-page PDF whose only page
fails to render after a successful open, the result has `total_pages = 1`
but empty `colors` and zero totals, so neither the sums-and-length
invariant nor the claimed fully-degraded failure shape
(`total_pages = 0`) holds. -/
theorem totals_dichotomy_counterexample :
    ¬ ((abortedSample.total_price =
          (abortedSample.colors.map PageClassification.price).sum ∧
        abortedSample.total_price_bnw =
          (abortedSample.colors.map PageClassification.price_bnw).sum ∧
        abortedSample.total_pages = abortedSample.colors.length) ∨
       (abortedSample.total_pages = 0 ∧ abortedSample.total_price = 0 ∧
        abortedSample.total_price_bnw = 0 ∧ abortedSample.colors = [])) := by
  decide

/-- C5: a convertible (doc/docx) file whose external conversion fails
yields the degraded DocumentResult (zero pages, zero totals, empty
`colors`) without raising, and within a batch it contributes exactly that
degraded entry, leaving every other file's result unchanged. -/
theorem conversion_failure_degrades (pre post : List (String × FileEnv))
    (filename : String) (env : FileEnv) (o : FetchOutcome) (cfg : PriceTable)
    (hext : fileExt filename = "doc" ∨ fileExt filename = "docx")
    (hconv : env.convOk = false)
    (hdot : filename.toList.contains '.' = true) :
    process_file_logic filename env cfg = ⟨filename, "document", 0, 0, 0, []⟩ ∧
    detect_colors (pre ++ (filename, env) :: post) o =
      detect_colors pre o ++
        ⟨filename, "document", 0, 0, 0, []⟩ :: detect_colors post o := by
  have htype : get_file_type filename = "document" := by
    rcases hext with hh | hh <;> simp [get_file_type, hh, ALLOWED_EXTENSIONS_IMG]
  have hproc : ∀ t : PriceTable,
      process_file_logic filename env t = ⟨filename, "document", 0, 0, 0, []⟩ := by
    intro t
    simp only [process_file_logic]
    rw [if_pos ⟨hext, hconv⟩, htype]
  have hdot2 : '.' ∈ filename.data := by
    simpa [String.toList] using hdot
  have hallow : allowed_file filename = true := by
    rcases hext with hh | hh <;>
      simp [allowed_file, hh, hdot2, String.toList, ALLOWED_EXTENSIONS_DOC,
        ALLOWED_EXTENSIONS_IMG]
  refine ⟨hproc cfg, ?_⟩
  simp only [detect_colors, List.filter_append, List.filter_cons, hallow,
    List.map_append, if_pos trivial]
  simp [hproc]

/-- Witness for `conversion_failure_degrades`: a single-file batch holding
a doc file with failed conversion returns exactly one degraded entry. -/
theorem conversion_failure_degrades_witness :
    process_file_logic ("a.doc") ⟨false, none, none⟩ defaultPrices =
      ⟨"a.doc", "document", 0, 0, 0, []⟩ ∧
    detect_colors [(("a.doc"), ⟨false, none, none⟩)] FetchOutcome.exn =
      [⟨"a.doc", "document", 0, 0, 0, []⟩] := by
  have h := conversion_failure_degrades [] [] ("a.doc") ⟨false, none, none⟩
    FetchOutcome.exn defaultPrices (Or.inl rfl) rfl rfl
  exact ⟨h.1, by simpa using h.2⟩

/-- C9: on every path each produced per-page entry carries the table's bnw
value as its `price_bnw` whatever its resolved tier, and for every
successfully (fully) processed file `total_price_bnw = total_pages * bnw`
follows. -/
theorem price_bnw_uniform (filename : String) (env : FileEnv) (cfg : PriceTable) :
    (process_file_logic filename env cfg).colors.map PageClassification.price_bnw =
      List.replicate (process_file_logic filename env cfg).colors.length cfg.bnw ∧
    (fileFullyProcessed filename env = true →
      (process_file_logic filename env cfg).total_price_bnw =
        ((process_file_logic filename env cfg).total_pages : ℤ) * cfg.bnw) := by
  simp only [process_file_logic, fileFullyProcessed]
  split_ifs with hconv htype
  · exact ⟨rfl, fun hfull => by simp at hfull⟩
  · cases env.image with
    | none => exact ⟨rfl, fun hfull => by simp at hfull⟩
    | some img => exact ⟨by simp [List.replicate_succ], fun _ => by simp⟩
  · cases env.pdf with
    | none => exact ⟨rfl, fun hfull => by simp at hfull⟩
    | some doc =>
      obtain ⟨h1, h2, h3, h4⟩ := processPagesExc_spec cfg doc 1
      cases hacc : (processPagesExc cfg 1 doc).1 with
      | none =>
        refine ⟨by simpa [hacc] using h1, fun hfull => ?_⟩
        have hany := h3.mp hacc
        simp only [List.any_eq_true] at hany
        obtain ⟨x, hx, hnx⟩ := hany
        simp only [List.all_eq_true] at hfull
        have hsome := hfull x hx
        cases x with
        | none => simp at hsome
        | some v => simp at hnx
      | some t =>
        obtain ⟨s1, s2, s3⟩ := h4 t hacc
        refine ⟨by simpa [hacc] using h1, fun hfull => ?_⟩
        have ht2 : t.2 = (doc.length : ℤ) * cfg.bnw := by
          rw [s2, h1, List.sum_replicate, nsmul_eq_mul, s3]
        simpa [hacc] using ht2

/-- Witness for `price_bnw_uniform`: a fully processed single image file
has `total_price_bnw = total_pages * bnw` at the default table. -/
theorem price_bnw_uniform_witness :
    fileFullyProcessed ("x.jpg")
      ⟨true, some (Buf.bgr 1 1 (fun _ _ => (0, 0, 0))), none⟩ = true ∧
    (process_file_logic ("x.jpg")
        ⟨true, some (Buf.bgr 1 1 (fun _ _ => (0, 0, 0))), none⟩
        defaultPrices).total_price_bnw =
      ((process_file_logic ("x.jpg")
        ⟨true, some (Buf.bgr 1 1 (fun _ _ => (0, 0, 0))), none⟩
        defaultPrices).total_pages : ℤ) * defaultPrices.bnw :=
  ⟨rfl, (price_bnw_uniform ("x.jpg")
    ⟨true, some (Buf.bgr 1 1 (fun _ _ => (0, 0, 0))), none⟩ defaultPrices).2 rfl⟩
